import Mathlib

/-!
Verification of `badge_dimensions_scanner.py` (RetroAchievements badge
dimensions scanner).

The Python source is shallowly embedded below:
* bytes are `List Nat` (each element a byte value),
* `RAImageChecker.get_png_dimensions` becomes `get_png_dimensions`,
* `RAImageChecker.check_image_dimensions` becomes `check_image_dimensions`
  (with the network fetch abstracted as an `Option (List Nat)` oracle value),
* `RAImageChecker._wait_for_rate_limit` becomes `wait_for_rate_limit` over an
  explicit limiter state, with wall-clock time as `ℚ`,
* the body of `main`'s per-identifier loop becomes `processGame`, the loop
  itself `runDriver` / `mainLoop` (the latter with an explicit interruption
  point, modelling `KeyboardInterrupt` observed at the top of the loop), and
  the final report plus process exit code `runMain`.

Network responses are supplied by an environment `env : Int → FetchResult`
giving, for each game id, the parsed metadata (`none` models any failure of
`get_game`, whose `try/except` returns `None`) and the raw asset bytes
(`none` models a failed asset download in `check_image_dimensions`).
-/

namespace BadgeScanner

/-- The fixed 8-byte PNG signature `\x89PNG\r\n\x1a\n` from
`data.startswith(b'\x89PNG\r\n\x1a\n')`. -/
def pngSignature : List Nat := [0x89, 0x50, 0x4E, 0x47, 0x0D, 0x0A, 0x1A, 0x0A]

/-- Python `data.startswith(sig)`: the first `sig.length` bytes equal `sig`. -/
def bytesStartWith (data sig : List Nat) : Bool :=
  data.take sig.length == sig

/-- Big-endian 32-bit value of four bytes (one `L` field of
`struct.unpack('>LL', ...)`). -/
def beU32 (b0 b1 b2 b3 : Nat) : Nat :=
  ((b0 * 256 + b1) * 256 + b2) * 256 + b3

/-- Python slice `data[a:b]` for `a ≤ b` (clamped at the end of the list). -/
def pySlice (data : List Nat) (a b : Nat) : List Nat :=
  (data.drop a).take (b - a)

/-- `struct.unpack('>LL', s)`: succeeds exactly when `s` is 8 bytes long,
returning the two big-endian 32-bit fields; on any other length
`struct.error` is raised, which the source catches and turns into `None`. -/
def unpackBE2 (s : List Nat) : Option (Nat × Nat) :=
  match s with
  | [a0, a1, a2, a3, b0, b1, b2, b3] =>
      some (beU32 a0 a1 a2 a3, beU32 b0 b1 b2 b3)
  | _ => none

/-- `RAImageChecker.get_png_dimensions`: if the data starts with the PNG
signature, unpack `'>LL'` from `data[16:24]` (returning `None` on
`struct.error`); otherwise return `None`. -/
def get_png_dimensions (data : List Nat) : Option (Nat × Nat) :=
  if bytesStartWith data pngSignature then
    unpackBE2 (pySlice data 16 24)
  else
    none

lemma pngSignature_length : pngSignature.length = 8 := rfl

lemma take8_eq_getD (t : List Nat) (h : 8 ≤ t.length) :
    t.take 8 = [t.getD 0 0, t.getD 1 0, t.getD 2 0, t.getD 3 0,
                t.getD 4 0, t.getD 5 0, t.getD 6 0, t.getD 7 0] := by
  rcases t with _ | ⟨a0, t⟩; · simp at h
  rcases t with _ | ⟨a1, t⟩; · simp at h
  rcases t with _ | ⟨a2, t⟩; · simp at h
  rcases t with _ | ⟨a3, t⟩; · simp at h
  rcases t with _ | ⟨a4, t⟩; · simp at h
  rcases t with _ | ⟨a5, t⟩; · simp at h
  rcases t with _ | ⟨a6, t⟩; · simp at h
  rcases t with _ | ⟨a7, t⟩; · simp at h
  rfl

lemma getD_drop16 (data : List Nat) (i : Nat) :
    (data.drop 16).getD i 0 = data.getD (16 + i) 0 := by
  simp [List.getD, List.getElem?_drop]

lemma unpackBE2_length_ne (s : List Nat) (h : s.length ≠ 8) :
    unpackBE2 s = none := by
  unfold unpackBE2
  split
  · simp at h
  · rfl

/-- C1: for every byte sequence starting with the 8-byte PNG signature and of
length at least 24, `get_png_dimensions` returns exactly the pair of
big-endian 32-bit fields read at byte offsets 16..19 (width) and
20..23 (height). -/
theorem get_png_dimensions_signature_ok (data : List Nat)
    (hsig : data.take 8 = pngSignature) (hlen : 24 ≤ data.length) :
    get_png_dimensions data =
      some (beU32 (data.getD 16 0) (data.getD 17 0) (data.getD 18 0) (data.getD 19 0),
            beU32 (data.getD 20 0) (data.getD 21 0) (data.getD 22 0) (data.getD 23 0)) := by
  have hguard : bytesStartWith data pngSignature = true := by
    unfold bytesStartWith
    rw [pngSignature_length, hsig]
    simp
  have hdroplen : 8 ≤ (data.drop 16).length := by
    simp [List.length_drop]
    omega
  unfold get_png_dimensions pySlice
  rw [hguard]
  simp only [if_true]
  rw [show 24 - 16 = 8 from rfl, take8_eq_getD _ hdroplen]
  simp only [getD_drop16]
  rfl

/-- C2: every byte sequence that is shorter than 24 bytes or does not start
with the PNG signature makes `get_png_dimensions` return `none` (the
`struct.error` on a short slice is caught; extraction never raises). -/
theorem get_png_dimensions_rejects (data : List Nat)
    (h : data.length < 24 ∨ data.take 8 ≠ pngSignature) :
    get_png_dimensions data = none := by
  unfold get_png_dimensions
  by_cases hguard : bytesStartWith data pngSignature = true
  · rw [hguard]
    simp only [if_true]
    have hsig : data.take 8 = pngSignature := by
      have := hguard
      unfold bytesStartWith at this
      rw [pngSignature_length] at this
      exact eq_of_beq this
    have hshort : data.length < 24 := h.resolve_right (fun hc => hc hsig)
    apply unpackBE2_length_ne
    unfold pySlice
    simp [List.length_take, List.length_drop]
    omega
  · rw [Bool.not_eq_true] at hguard
    rw [hguard]
    simp

/-- A well-formed 24-byte PNG header: signature, 8 filler bytes, then the
width field `00 00 00 60` and height field `00 00 00 60` (96 × 96). -/
def png96Bytes : List Nat :=
  pngSignature ++ [0, 0, 0, 0, 0, 0, 0, 0] ++ [0, 0, 0, 0x60] ++ [0, 0, 0, 0x60]

/-- A 24-byte PNG header whose width and height fields are `00 00 00 20`
(32 × 32). -/
def png32Bytes : List Nat :=
  pngSignature ++ [0, 0, 0, 0, 0, 0, 0, 0] ++ [0, 0, 0, 0x20] ++ [0, 0, 0, 0x20]

/-- Witness for C1: the spec's example input (signature + 8 zero bytes + two
copies of the big-endian field 96) yields `(96, 96)`. -/
theorem get_png_dimensions_signature_ok_witness :
    get_png_dimensions png96Bytes = some (96, 96) :=
  (get_png_dimensions_signature_ok png96Bytes (by decide) (by decide)).trans (by decide)

/-- Witness for C2: a 10-byte input with a valid signature is rejected. -/
theorem get_png_dimensions_rejects_witness :
    get_png_dimensions (pngSignature ++ [0, 0]) = none :=
  get_png_dimensions_rejects (pngSignature ++ [0, 0]) (Or.inl (by decide))

/-- Parsed metadata of one game, as `main` reads it from `get_game`'s JSON:
`Title` (read via `game_data.get('Title', 'Unknown')`, so optional) and
`ImageIcon` (checked via `'ImageIcon' in game_data and game_data['ImageIcon']`;
`none` covers an absent or null key, the empty string a falsy present one). -/
structure GameData where
  title : Option String
  imageIcon : Option String
  deriving DecidableEq

/-- The network's answers for one game id: the result of
`checker.get_game(game_id)` (`none` models its `try/except` returning `None`
on any network, transport or parse failure, or a falsy JSON body) and the raw
bytes downloaded by `check_image_dimensions` for the icon path (`none` models
the `urlopen` failure branch there). -/
structure FetchResult where
  gameData : Option GameData
  assetBytes : Option (List Nat)
  deriving DecidableEq

/-- One entry of the `incorrect_dimensions` list built in `main`. -/
structure Finding where
  id : Int
  title : String
  path : String
  dims : Nat × Nat
  deriving DecidableEq

/-- The mutable locals of `main`'s loop: `incorrect_dimensions`, `processed`
and `errors`. -/
structure DriverState where
  findings : List Finding
  processed : Nat
  errors : Nat
  deriving DecidableEq

/-- `incorrect_dimensions = []`, `processed = 0`, `errors = 0`. -/
def initState : DriverState := ⟨[], 0, 0⟩

/-- `RAImageChecker.check_image_dimensions`: download the asset bytes (here
the oracle value `assetBytes`; `none` is the caught `urlopen` exception) and
run `get_png_dimensions` on them. -/
def check_image_dimensions (assetBytes : Option (List Nat)) : Option (Nat × Nat) :=
  match assetBytes with
  | some data => get_png_dimensions data
  | none => none

/-- The `if 'ImageIcon' in game_data and game_data['ImageIcon']:` block of
`main`: with a truthy icon path, check the dimensions and either append a
Finding (mismatch), leave the state unchanged (96 × 96), or count an error
(undetermined dimensions); without one, count an error. -/
def checkIconStep (env : Int → FetchResult) (st : DriverState) (game_id : Int)
    (game_data : GameData) : DriverState :=
  match game_data.imageIcon with
  | some icon =>
    if icon = "" then
      { st with errors := st.errors + 1 }
    else
      match check_image_dimensions (env game_id).assetBytes with
      | some dims =>
        if dims.1 ≠ 96 ∨ dims.2 ≠ 96 then
          { st with findings :=
              st.findings ++ [⟨game_id, game_data.title.getD ("Unknown"), icon, dims⟩] }
        else
          st
      | none => { st with errors := st.errors + 1 }
  | none => { st with errors := st.errors + 1 }

/-- The `processed += 1` at the end of a non-skipped loop iteration. -/
def markProcessed (st : DriverState) : DriverState :=
  { st with processed := st.processed + 1 }

/-- One iteration of `main`'s `for game_id in range(...)` body: a failed
`get_game` increments `errors` and `continue`s (skipping `processed += 1`);
otherwise the icon check runs and then `processed += 1`. -/
def processGame (env : Int → FetchResult) (st : DriverState) (game_id : Int) :
    DriverState :=
  match (env game_id).gameData with
  | none => { st with errors := st.errors + 1 }
  | some game_data => markProcessed (checkIconStep env st game_id game_data)

@[simp] lemma markProcessed_findings (st : DriverState) :
    (markProcessed st).findings = st.findings := rfl

@[simp] lemma markProcessed_errors (st : DriverState) :
    (markProcessed st).errors = st.errors := rfl

@[simp] lemma markProcessed_processed (st : DriverState) :
    (markProcessed st).processed = st.processed + 1 := rfl

/-- Python `range(start_id, end_id + 1)` over machine integers. -/
def idRange (start_id end_id : Int) : List Int :=
  (List.range (end_id + 1 - start_id).toNat).map (fun (k : Nat) => start_id + (k : Int))

/-- An uninterrupted run of `main`'s loop over the whole id range. -/
def runDriver (env : Int → FetchResult) (start_id end_id : Int) : DriverState :=
  (idRange start_id end_id).foldl (processGame env) initState

/-- C3 helper: one loop iteration either leaves `incorrect_dimensions` alone
or appends one entry whose dimensions fail the 96 × 96 test. -/
lemma findings_step (env : Int → FetchResult) (st : DriverState) (game_id : Int) :
    (processGame env st game_id).findings = st.findings ∨
    ∃ f : Finding, f.id = game_id ∧ f.dims ≠ (96, 96) ∧
      (processGame env st game_id).findings = st.findings ++ [f] := by
  unfold processGame checkIconStep
  rcases hg : (env game_id).gameData with _ | game_data
  · simp
  · rcases hi : game_data.imageIcon with _ | icon
    · simp [hi]
    · by_cases hemp : icon = ""
      · simp [hi, hemp]
      · rcases hd : check_image_dimensions (env game_id).assetBytes with _ | dims
        · simp [hi, hemp, hd]
        · by_cases h96 : dims.1 ≠ 96 ∨ dims.2 ≠ 96
          · refine Or.inr ⟨⟨game_id, game_data.title.getD ("Unknown"), icon, dims⟩,
              rfl, ?_, ?_⟩
            · intro hc
              have hdd : dims = (96, 96) := hc
              rw [hdd] at h96
              simp at h96
            · simp [hi, hemp, hd, h96]
          · simp [hi, hemp, hd, h96]

/-- Membership in the findings of a fold comes from the initial state or from
an appended mismatch entry. -/
lemma mem_findings_foldl (env : Int → FetchResult) (ids : List Int)
    (st : DriverState) (f : Finding)
    (hf : f ∈ (ids.foldl (processGame env) st).findings) :
    f ∈ st.findings ∨ f.dims ≠ (96, 96) := by
  induction ids generalizing st with
  | nil => exact Or.inl hf
  | cons i rest ih =>
    rcases ih (processGame env st i) hf with hmem | hne
    · rcases findings_step env st i with heq | ⟨g, _, hgdims, heq⟩
      · rw [heq] at hmem
        exact Or.inl hmem
      · rw [heq] at hmem
        rcases List.mem_append.1 hmem with h1 | h1
        · exact Or.inl h1
        · rcases List.mem_singleton.1 h1 with rfl
          exact Or.inr hgdims
    · exact Or.inr hne

/-- C3: at every point during a run (i.e., after the driver has processed any
list of identifiers starting from the initial state), every accumulated
Finding has dimensions different from (96, 96). -/
theorem findings_never_target (env : Int → FetchResult) (ids : List Int)
    (f : Finding) (hf : f ∈ (ids.foldl (processGame env) initState).findings) :
    f.dims ≠ (96, 96) := by
  rcases mem_findings_foldl env ids initState f hf with hmem | hne
  · simp [initState] at hmem
  · exact hne

/-- An environment in which every game has metadata and a 32 × 32 icon. -/
def envAll32 : Int → FetchResult :=
  fun _ => ⟨some ⟨some ("T"), some ("p.png")⟩, some png32Bytes⟩

/-- Witness for C3: the finding recorded for the 32 × 32 icon of game 1 in
`envAll32` indeed has dimensions different from (96, 96). -/
theorem findings_never_target_witness :
    (⟨1, "T", "p.png", (32, 32)⟩ : Finding).dims ≠ (96, 96) :=
  findings_never_target envAll32 [1] ⟨1, "T", "p.png", (32, 32)⟩ (by decide)

/-- C4 helper: one loop iteration either counts one error with the findings
untouched, appends exactly one Finding with the error counter untouched, or
leaves both untouched. -/
lemma step_outcome (env : Int → FetchResult) (st : DriverState) (game_id : Int) :
    ((processGame env st game_id).errors = st.errors + 1 ∧
     (processGame env st game_id).findings = st.findings) ∨
    ((processGame env st game_id).errors = st.errors ∧
     ∃ f : Finding, (processGame env st game_id).findings = st.findings ++ [f]) ∨
    ((processGame env st game_id).errors = st.errors ∧
     (processGame env st game_id).findings = st.findings) := by
  unfold processGame checkIconStep
  rcases hg : (env game_id).gameData with _ | game_data
  · exact Or.inl ⟨rfl, rfl⟩
  · rcases hi : game_data.imageIcon with _ | icon
    · simp [hi]
    · by_cases hemp : icon = ""
      · simp [hi, hemp]
      · rcases hd : check_image_dimensions (env game_id).assetBytes with _ | dims
        · simp [hi, hemp, hd]
        · by_cases h96 : dims.1 ≠ 96 ∨ dims.2 ≠ 96
          · refine Or.inr (Or.inl ⟨?_,
              ⟨⟨game_id, game_data.title.getD ("Unknown"), icon, dims⟩, ?_⟩⟩) <;>
              simp [hi, hemp, hd, h96]
          · refine Or.inr (Or.inr ⟨?_, ?_⟩) <;> simp [hi, hemp, hd, h96]

/-- C4: each identifier contributes exactly one of: a single error increment
(findings unchanged), a single appended Finding (errors unchanged), or
neither — never both an error increment and a Finding. -/
theorem step_exactly_one_outcome (env : Int → FetchResult) (st : DriverState)
    (game_id : Int) :
    ((processGame env st game_id).errors = st.errors + 1 ∧
     (processGame env st game_id).findings = st.findings) ∨
    ((processGame env st game_id).errors = st.errors ∧
     ∃ f : Finding, (processGame env st game_id).findings = st.findings ++ [f]) ∨
    ((processGame env st game_id).errors = st.errors ∧
     (processGame env st game_id).findings = st.findings) :=
  step_outcome env st game_id

/-- C5 helper: the id range is the ascending enumeration of
`[start_id, end_id]`. -/
lemma idRange_sorted (start_id end_id : Int) :
    List.Sorted (· < ·) (idRange start_id end_id) := by
  unfold idRange
  rw [List.Sorted, List.pairwise_map]
  apply List.Pairwise.imp ?_ (List.pairwise_lt_range _)
  intro a b hab
  omega


lemma idRange_mem (start_id end_id a : Int) :
    a ∈ idRange start_id end_id ↔ start_id ≤ a ∧ a ≤ end_id := by
  unfold idRange
  simp only [List.mem_map, List.mem_range]
  constructor
  · rintro ⟨k, hk, rfl⟩
    omega
  · rintro ⟨h1, h2⟩
    exact ⟨(a - start_id).toNat, by omega, by omega⟩

/-- Findings accumulate in processing order: starting from a state whose
finding ids followed by the remaining ids form a strictly increasing list,
the fold keeps the finding ids strictly increasing. -/
lemma findings_ids_sorted_foldl (env : Int → FetchResult) (ids : List Int)
    (st : DriverState)
    (h : List.Sorted (· < ·) (st.findings.map Finding.id ++ ids)) :
    List.Sorted (· < ·)
      ((ids.foldl (processGame env) st).findings.map Finding.id) := by
  induction ids generalizing st with
  | nil => simpa using h
  | cons i rest ih =>
    apply ih
    rcases findings_step env st i with heq | ⟨f, hfid, _, heq⟩
    · rw [heq]
      exact h.sublist ((List.sublist_cons_self i rest).append_left _)
    · rw [heq]
      simpa [hfid] using h

/-- C5: the driver visits exactly the identifiers of `[start_id, end_id]`,
each exactly once, in strictly ascending order, and the finding ids of the
resulting run are strictly increasing (the findings list is sorted by id). -/
theorem driver_visits_ascending (env : Int → FetchResult)
    (start_id end_id : Int) :
    List.Sorted (· < ·) (idRange start_id end_id) ∧
    (∀ a : Int, a ∈ idRange start_id end_id ↔ start_id ≤ a ∧ a ≤ end_id) ∧
    List.Sorted (· < ·)
      ((runDriver env start_id end_id).findings.map Finding.id) := by
  refine ⟨idRange_sorted start_id end_id, fun a => idRange_mem start_id end_id a, ?_⟩
  apply findings_ids_sorted_foldl
  simpa [initState] using idRange_sorted start_id end_id

/-- The environment of the spec's end-to-end scenario: id 1's metadata fetch
fails, id 2 has a 96 × 96 icon, id 3 has a 32 × 32 icon. -/
def envScenario : Int → FetchResult :=
  fun i =>
    if i = 1 then ⟨none, none⟩
    else if i = 2 then ⟨some ⟨some ("Game Two"), some ("icon2.png")⟩, some png96Bytes⟩
    else if i = 3 then ⟨some ⟨some ("Game Three"), some ("icon3.png")⟩, some png32Bytes⟩
    else ⟨none, none⟩

/-- C6: running ids 1..3 in `envScenario` ends with `processed = 2` (the
failed fetch of id 1 skips `processed += 1`), `errors = 1`, and exactly one
finding, for id 3 with dimensions (32, 32). -/
theorem scenario_run_stats :
    (runDriver envScenario 1 3).processed = 2 ∧
    (runDriver envScenario 1 3).errors = 1 ∧
    (runDriver envScenario 1 3).findings =
      [⟨3, "Game Three", "icon3.png", (32, 32)⟩] := by
  refine ⟨?_, ?_, ?_⟩ <;> decide

/-- The four per-identifier failure cases of §7: `get_game` returned `None`
(any network, transport or parse failure — the `try/except` makes the call
total), the metadata has no truthy `ImageIcon`, the asset download failed, or
the bytes were unparseable (`check_image_dimensions` returned `None`). -/
def stepFails (r : FetchResult) : Bool :=
  match r.gameData with
  | none => true
  | some game_data =>
    match game_data.imageIcon with
    | none => true
    | some icon => decide (icon = "") || (check_image_dimensions r.assetBytes).isNone

/-- C7: every per-identifier failure is absorbed locally: it increments the
error counter by exactly one, records no Finding, and the loop goes on to
fold the remaining identifiers from the stepped state — no failure aborts
the range. -/
theorem failure_counted_and_continues (env : Int → FetchResult)
    (st : DriverState) (game_id : Int) (rest : List Int)
    (h : stepFails (env game_id) = true) :
    (processGame env st game_id).errors = st.errors + 1 ∧
    (processGame env st game_id).findings = st.findings ∧
    (game_id :: rest).foldl (processGame env) st =
      rest.foldl (processGame env) (processGame env st game_id) := by
  refine ⟨?_, ?_, rfl⟩ <;>
  · unfold processGame checkIconStep
    unfold stepFails at h
    rcases hg : (env game_id).gameData with _ | game_data
    · simp
    · rcases hi : game_data.imageIcon with _ | icon
      · simp [hi]
      · by_cases hemp : icon = ""
        · simp [hi, hemp]
        · rcases hd : check_image_dimensions (env game_id).assetBytes with _ | dims
          · simp [hi, hemp, hd]
          · exfalso
            simp [hg, hi, hemp, hd] at h

/-- An environment in which every metadata fetch fails. -/
def envDown : Int → FetchResult := fun _ => ⟨none, none⟩

/-- Witness for C7: in `envDown`, processing id 1 from the initial state
yields one error, no findings, and the fold continues. -/
theorem failure_counted_and_continues_witness :
    (processGame envDown initState 1).errors = initState.errors + 1 ∧
    (processGame envDown initState 1).findings = initState.findings ∧
    ([(1 : Int)]).foldl (processGame envDown) initState =
      ([] : List Int).foldl (processGame envDown) (processGame envDown initState 1) :=
  failure_counted_and_continues envDown initState 1 [] (by decide)

/-- The limiter's state: `self.request_delay` (set to 0.5 in `__init__` and
never changed) and `self.last_request` (initially 0). Wall-clock time is a
rational number of seconds. -/
structure LimiterState where
  request_delay : ℚ
  last_request : ℚ
  deriving DecidableEq

/-- `__init__`: `request_delay = 0.5`, `last_request = 0`. -/
def initLimiter : LimiterState := ⟨1/2, 0⟩

/-- `RAImageChecker._wait_for_rate_limit`, entered at wall-clock time `now`:
if less than `request_delay` elapsed since `last_request`, sleep for the
difference; then store the post-sleep clock in `last_request`. The first
component is the time at which the call returns. -/
def wait_for_rate_limit (st : LimiterState) (now : ℚ) : ℚ × LimiterState :=
  if now - st.last_request < st.request_delay then
    (now + (st.request_delay - (now - st.last_request)),
     { st with last_request := now + (st.request_delay - (now - st.last_request)) })
  else
    (now, { st with last_request := now })

/-- C8: (1) a call returns at least `request_delay` after the recorded
`last_request` (which is the previous call's return time), so consecutive
returns are spaced by ≥ `request_delay`; (2) if the distance between the
recorded timestamp and the sleep demanded by it is already covered,
the call does not sleep and returns immediately; (3) a call on the freshly
initialised state returns immediately (no blocking) at any realizable
wall-clock time, i.e. any `now ≥ 0.5` seconds past the epoch; (4) after the
call `last_request` equals the time at which the call returned. -/
theorem rate_limit_spacing (st : LimiterState) (now first_now : ℚ)
    (hclock : initLimiter.request_delay ≤ first_now) :
    st.request_delay ≤ (wait_for_rate_limit st now).1 - st.last_request ∧
    (st.request_delay ≤ now - st.last_request →
      (wait_for_rate_limit st now).1 = now) ∧
    (wait_for_rate_limit initLimiter first_now).1 = first_now ∧
    (wait_for_rate_limit st now).2.last_request = (wait_for_rate_limit st now).1 := by
  refine ⟨?_, ?_, ?_, ?_⟩
  · unfold wait_for_rate_limit
    split
    · simp only
      linarith
    · rename_i hge
      simp only
      linarith [not_lt.1 hge]
  · intro hgap
    unfold wait_for_rate_limit
    rw [if_neg (not_lt.2 hgap)]
  · unfold wait_for_rate_limit initLimiter
    rw [if_neg]
    simp only [not_lt]
    simpa [initLimiter] using hclock
  · unfold wait_for_rate_limit
    split <;> rfl

/-- Witness for C8 at concrete times: previous return at 10 s with the
default 0.5 s delay, next call also at 10 s, first-ever call at 1 s. -/
theorem rate_limit_spacing_witness :
    (LimiterState.mk (1/2) 10).request_delay ≤
      (wait_for_rate_limit ⟨1/2, 10⟩ 10).1 - (LimiterState.mk (1/2) 10).last_request ∧
    ((LimiterState.mk (1/2) 10).request_delay ≤
        10 - (LimiterState.mk (1/2) 10).last_request →
      (wait_for_rate_limit ⟨1/2, 10⟩ 10).1 = 10) ∧
    (wait_for_rate_limit initLimiter 1).1 = 1 ∧
    (wait_for_rate_limit ⟨1/2, 10⟩ 10).2.last_request =
      (wait_for_rate_limit ⟨1/2, 10⟩ 10).1 :=
  rate_limit_spacing ⟨1/2, 10⟩ 10 1 (by norm_num [initLimiter])

/-- The final report printed by `main` (both on completion and in the
`KeyboardInterrupt` handler): the `processed` and `errors` counters and the
accumulated `incorrect_dimensions` list. -/
structure Report where
  processed : Nat
  errors : Nat
  findings : List Finding
  deriving DecidableEq

/-- Build the report from the loop's state. -/
def report (st : DriverState) : Report := ⟨st.processed, st.errors, st.findings⟩

/-- `main`'s `try: for game_id in ...` loop with a cooperative interruption
point: `intr = some k` raises `KeyboardInterrupt` at the top of iteration
`k` (0-based, i.e. between identifiers, after `k` of them were handled);
`intr = none` is an undisturbed run. The Bool records whether the loop was
aborted by the interrupt. -/
def mainLoop (env : Int → FetchResult) (ids : List Int) (intr : Option Nat)
    (st : DriverState) : DriverState × Bool :=
  match ids, intr with
  | [], _ => (st, false)
  | _ :: _, some 0 => (st, true)
  | i :: rest, none => mainLoop env rest none (processGame env st i)
  | i :: rest, some (n + 1) => mainLoop env rest (some n) (processGame env st i)

/-- All of `main` after argument parsing: run the loop from the initial
state, emit the report built from whatever state was accumulated, and exit
with `sys.exit(1)` from the `except KeyboardInterrupt` handler or fall off
the end with status 0. -/
def runMain (env : Int → FetchResult) (start_id end_id : Int)
    (intr : Option Nat) : Report × Nat :=
  ((report (mainLoop env (idRange start_id end_id) intr initState).1),
   if (mainLoop env (idRange start_id end_id) intr initState).2 then 1 else 0)

/-- Without an interrupt, the loop is exactly the fold over all ids and is
not aborted. -/
lemma mainLoop_no_intr (env : Int → FetchResult) (ids : List Int)
    (st : DriverState) :
    mainLoop env ids none st = (ids.foldl (processGame env) st, false) := by
  induction ids generalizing st with
  | nil => rfl
  | cons i rest ih => simpa [mainLoop] using ih (processGame env st i)

/-- With an interrupt scheduled before iteration `k`, the loop folds exactly
the first `k` ids, and is aborted iff some id was still pending. -/
lemma mainLoop_intr (env : Int → FetchResult) (ids : List Int) (k : Nat)
    (st : DriverState) :
    mainLoop env ids (some k) st =
      ((ids.take k).foldl (processGame env) st, decide (k < ids.length)) := by
  induction ids generalizing k st with
  | nil => simp [mainLoop]
  | cons i rest ih =>
    cases k with
    | zero => simp [mainLoop]
    | succ n => simpa [mainLoop, Nat.succ_lt_succ_iff] using ih n (processGame env st i)

/-- C9: the interrupt is the only way the loop stops early. An undisturbed
run reports the full fold and exits 0; a run interrupted between identifiers
(after `k` of them) still emits the report built from the state accumulated
so far and exits 1 — unless the range was already finished, in which case
the interrupt never fires and the exit code is 0. -/
theorem interrupt_partial_report (env : Int → FetchResult)
    (start_id end_id : Int) (intr : Option Nat) :
    (intr = none →
      runMain env start_id end_id intr = (report (runDriver env start_id end_id), 0)) ∧
    (∀ k : Nat, intr = some k →
      runMain env start_id end_id intr =
        (report (((idRange start_id end_id).take k).foldl (processGame env) initState),
         if k < (idRange start_id end_id).length then 1 else 0)) := by
  constructor
  · rintro rfl
    unfold runMain runDriver
    rw [mainLoop_no_intr]
    rfl
  · rintro k rfl
    unfold runMain
    rw [mainLoop_intr]
    by_cases hk : k < (idRange start_id end_id).length
    · simp [hk]
    · simp [hk]

/-- Witness for C9: interrupting the 1..3 run of `envScenario` after two
identifiers reports the two-id prefix state and exits 1. -/
theorem interrupt_partial_report_witness :
    runMain envScenario 1 3 (some 2) =
      (report (((idRange 1 3).take 2).foldl (processGame envScenario) initState),
       if 2 < (idRange 1 3).length then 1 else 0) :=
  (interrupt_partial_report envScenario 1 3 (some 2)).2 2 rfl

/-- C10: an inverted range (`start_id > end_id`) makes `range(start_id,
end_id + 1)` empty: no identifier is visited, and the run completes normally
with zero processed, zero errors, no findings and exit code 0. -/
theorem empty_range_normal_exit (env : Int → FetchResult)
    (start_id end_id : Int) (h : end_id < start_id) :
    idRange start_id end_id = [] ∧
    runMain env start_id end_id none = (⟨0, 0, []⟩, 0) := by
  have hr : idRange start_id end_id = [] := by
    unfold idRange
    have : (end_id + 1 - start_id).toNat = 0 := by omega
    rw [this]
    rfl
  refine ⟨hr, ?_⟩
  unfold runMain
  rw [hr, mainLoop_no_intr]
  rfl

/-- Witness for C10: the run over ids 5..3 in a dead network. -/
theorem empty_range_normal_exit_witness :
    idRange 5 3 = [] ∧
    runMain envDown 5 3 none = (⟨0, 0, []⟩, 0) :=
  empty_range_normal_exit envDown 5 3 (by norm_num)

end BadgeScanner
